import Mathlib

/-!
Verification of the beads issue tracker's core subsystems against its
specification: the version tracker (`trackBdVersion`, `getVersionsSince`),
the doctor engine's error classifier (`classifyDatabaseError`) and database
check (`CheckDatabaseVersion`), the configuration stack (`GetValueSource`,
`GetFieldStrategies`, `GetFieldStrategy`, `SaveConfigValue`), and the Dolt
backend configuration commands (`setDoltConfig`, `testServerConnection`).

The Go code is shallowly embedded: file-system and database probes become
explicit parameters describing their observed results, strings are Lean
strings operated on character-wise (so every definition reduces in the
kernel), and functions that terminate the process on invalid input return
an explicit error constructor.
-/

/-! ## Character and string utilities

Lean core string functions such as `String.replace` and `String.splitOn`
are defined by well-founded recursion on byte positions and do not reduce
in the kernel, so the embedding uses structurally recursive equivalents
over `String.data`.
-/

/-- ASCII uppercase of a character (`strings.ToUpper` restricted to the
ASCII configuration keys the program uses). -/
def chUp (c : Char) : Char :=
  if 'a' ≤ c ∧ c ≤ 'z' then Char.ofNat (c.toNat - 32) else c

/-- ASCII uppercase of a string. -/
def upStr (s : String) : String := ⟨s.data.map chUp⟩

/-- Replace every occurrence of character `a` by character `b`
(`strings.ReplaceAll` with one-character arguments). -/
def replaceCh (s : String) (a b : Char) : String :=
  ⟨s.data.map (fun c => if c = a then b else c)⟩

/-- Split a character list on a separator character; always returns at
least one (possibly empty) component, like Go `strings.Split`. -/
def chSplit (sep : Char) : List Char → List (List Char)
  | [] => [[]]
  | c :: rest =>
    let r := chSplit sep rest
    if c = sep then [] :: r
    else match r with
      | [] => [[c]]
      | h :: t => (c :: h) :: t

/-- Split a string on `'.'` into its dot-separated components
(Go `strings.SplitN(key, ".", 2)` applied recursively). -/
def strSplitDots (key : String) : List String :=
  (chSplit '.' key.data).map (fun l => String.mk l)

/-- Accumulate the decimal value of a character list; `none` as soon as a
non-digit appears. -/
def digitsVal (acc : Nat) : List Char → Option Nat
  | [] => some acc
  | c :: rest =>
    if '0' ≤ c ∧ c ≤ '9' then digitsVal (acc * 10 + (c.toNat - 48)) rest else none

/-- Parse a non-empty all-digit character list as a natural number. -/
def parseDigits : List Char → Option Nat
  | [] => none
  | c :: rest => digitsVal 0 (c :: rest)

/-- Boolean list-prefix test on characters. -/
def chHasPfx : List Char → List Char → Bool
  | [], _ => true
  | _ :: _, [] => false
  | a :: as, b :: bs => a = b && chHasPfx as bs

/-- Boolean substring test: does `pat` occur contiguously in the list? -/
def chIsSubstr (pat : List Char) : List Char → Bool
  | [] => chHasPfx pat []
  | c :: rest => chHasPfx pat (c :: rest) || chIsSubstr pat rest

/-- `strings.Contains s pat`: `pat` occurs as a substring of `s`. -/
def strContains (s pat : String) : Bool := chIsSubstr pat.data s.data

/-- Trim ASCII whitespace from both ends (`strings.TrimSpace` restricted to
the ASCII configuration values the program uses). -/
def strTrim (s : String) : String :=
  ⟨(s.data.dropWhile Char.isWhitespace).reverse.dropWhile Char.isWhitespace |>.reverse⟩

/-- ASCII lowercase of a character. -/
def chDown (c : Char) : Char :=
  if 'A' ≤ c ∧ c ≤ 'Z' then Char.ofNat (c.toNat + 32) else c

/-- ASCII lowercase of a string (`strings.ToLower` on ASCII data). -/
def strToLower (s : String) : String := ⟨s.data.map chDown⟩

/-! ## Version tracker

Modelled from the spec: the version tracker lives in the main package
(`version.go`), which is not under `src/` — only its tests are.  The spec
(§4.4) gives the data (`versionChanges` newest-first, the plain-text
`.local_version` file) and the algorithm of `trackBdVersion` and
`getVersionsSince` verbatim; the definitions below follow those words.
-/

/-- One entry of the baked-in changelog table (newest first). -/
structure VersionChange where
  Version : String
  Date : String
  Changes : List String
deriving DecidableEq

/-- Modelled from the spec: numeric dot-separated version components
("0.22.0" becomes [0, 22, 0]); non-numeric components count as 0. -/
def verParts (s : String) : List Nat :=
  (chSplit '.' s.data).map (fun comp => (parseDigits comp).getD 0)

/-- Lexicographic strict order on component lists; a missing component is
older than any present one. -/
def verListLt : List Nat → List Nat → Bool
  | [], [] => false
  | [], _ :: _ => true
  | _ :: _, [] => false
  | a :: as, b :: bs => if a < b then true else if b < a then false else verListLt as bs

/-- Modelled from the spec: `a` is a strictly older version than `b`. -/
def verLt (a b : String) : Bool := verListLt (verParts a) (verParts b)

/-- Modelled from the spec: `getVersionsSince(from)` returns every entry of
the newest-first changelog newer than `from`, oldest-first; if `from` is
empty or not found, the whole table in chronological order. -/
def getVersionsSince (changes : List VersionChange) (fromV : String) : List VersionChange :=
  if fromV = "" then changes.reverse
  else if changes.all (fun c => c.Version != fromV) then changes.reverse
  else (changes.takeWhile (fun c => c.Version != fromV)).reverse

/-- Outcome of one `trackBdVersion` run: the two process-wide globals it
sets and the contents of `.local_version` afterwards. -/
structure TrackResult where
  upgradeDetected : Bool
  previousVersion : String
  localVersionFile : String
deriving DecidableEq

/-- Modelled from the spec: `trackBdVersion` is missing from `src/` (only
its tests are present); spec §4.4 steps 2–3 (step 1, locating `.beads/`,
is outside the claims).  Given the binary's version and the contents of
`.local_version` (`none` means the file is missing, first-run), produce
the globals and the file's new contents. -/
def trackBdVersion (binaryVersion : String) (localVersion : Option String) : TrackResult :=
  match localVersion with
  | none => { upgradeDetected := false, previousVersion := "", localVersionFile := binaryVersion }
  | some fv =>
    if verLt fv binaryVersion then
      { upgradeDetected := true, previousVersion := fv, localVersionFile := binaryVersion }
    else if fv = binaryVersion then
      { upgradeDetected := false, previousVersion := "", localVersionFile := fv }
    else
      { upgradeDetected := false, previousVersion := "", localVersionFile := binaryVersion }

/-! ## Doctor engine: error classification (`classifyDatabaseError`)

Direct embedding of `classifyDatabaseError` from the doctor package: a pure
function of the error message, the JSONL issue count and the
JSONL-availability flag, returning the error-type description and the
recovery steps.  The message strings are reproduced byte-for-byte (with
apostrophes and dashes written as escapes).
-/

/-- Recovery steps of the "Database is locked" classification. -/
def lockedRecoverySteps : String :=
  "1. Check for running bd processes: ps aux | grep bd\n" ++
  "2. Kill any stale processes\n" ++
  "3. Run: bd doctor \x2d-fix (removes stale lock files including Dolt internal locks)\n" ++
  "4. If still stuck, manually remove: rm .beads/dolt-access.lock .beads/dolt/*/.dolt/noms/LOCK"

/-- Recovery steps of the corrupted-file classification when a JSONL backup
with `jsonlCount` issues is available; the count is interpolated. -/
def notADatabaseStepsJsonl (jsonlCount : Int) : String :=
  "Database file is corrupted beyond repair.\n\n" ++
  "Recovery steps:\n" ++
  "1. Backup corrupt database: mv .beads/beads.db .beads/beads.db.broken\n" ++
  "2. Rebuild from JSONL (" ++ toString jsonlCount ++ " issues): bd doctor \x2d-fix \x2d-force \x2d-source=jsonl\n" ++
  "3. Verify: bd stats"

/-- Recovery steps of the corrupted-file classification without JSONL. -/
def notADatabaseStepsNoJsonl : String :=
  "Database file is corrupted and no JSONL backup found.\n" ++
  "Manual recovery required:\n" ++
  "1. Restore from git: git checkout HEAD \x2d- .beads/issues.jsonl\n" ++
  "2. Rebuild database: bd doctor \x2d-fix \x2d-force"

/-- Recovery steps of the migration/validation classification with JSONL. -/
def migrationStepsJsonl (jsonlCount : Int) : String :=
  "Database has validation errors (possibly orphaned dependencies).\n\n" ++
  "Recovery steps:\n" ++
  "1. Backup database: mv .beads/beads.db .beads/beads.db.broken\n" ++
  "2. Rebuild from JSONL (" ++ toString jsonlCount ++ " issues): bd doctor \x2d-fix \x2d-force \x2d-source=jsonl\n" ++
  "3. Verify: bd stats\n\n" ++
  "Alternative: bd doctor \x2d-fix \x2d-force (attempts to repair in-place)"

/-- Recovery steps of the migration/validation classification without JSONL. -/
def migrationStepsNoJsonl : String :=
  "Database validation failed and no JSONL backup available.\n" ++
  "Try: bd doctor \x2d-fix \x2d-force"

/-- Recovery steps of the generic classification with JSONL available. -/
def genericStepsJsonl (jsonlCount : Int) : String :=
  "Run \x27bd doctor \x2d-fix \x2d-source=jsonl\x27 to rebuild from JSONL (" ++ toString jsonlCount ++ " issues)"

/-- Recovery steps of the generic classification without JSONL. -/
def genericStepsNoJsonl : String :=
  "Run \x27bd doctor \x2d-fix \x2d-force\x27 to attempt recovery"

/-- `classifyDatabaseError` from the doctor package: an ordered
substring-match over the error message. -/
def classifyDatabaseError (errMsg : String) (jsonlCount : Int) (jsonlAvailable : Bool) :
    String × String :=
  if strContains errMsg "database is locked" then
    ("Database is locked", lockedRecoverySteps)
  else if strContains errMsg "not a database" || strContains errMsg "file is not a database" then
    ("File is not a valid SQLite database",
      if jsonlAvailable then notADatabaseStepsJsonl jsonlCount else notADatabaseStepsNoJsonl)
  else if strContains errMsg "migration" || strContains errMsg "validation failed" then
    ("Database migration or validation failed",
      if jsonlAvailable then migrationStepsJsonl jsonlCount else migrationStepsNoJsonl)
  else
    ("Failed to open database",
      if jsonlAvailable then genericStepsJsonl jsonlCount else genericStepsNoJsonl)

/-! ## Configuration stack

`GetValueSource`, `GetFieldStrategies` and `GetFieldStrategy` from
`internal/config/config.go`.  The viper state is embedded as explicit
parameters: the process environment as a function from variable name to
value (Go `os.Getenv` returns `""` for unset variables), the loaded config
file as a membership predicate, and the `conflict.fields` map as an
association list with unique keys.
-/

/-- Where a configuration value came from (`ConfigSource`). -/
inductive ConfigSource where
  | default
  | configFile
  | envVar
  | flag
deriving DecidableEq

/-- The environment variable name checked for a key: prefix + the key with
`-` and `.` replaced by `_`, uppercased (`GetValueSource`'s `envKey`). -/
def envKeyOf (pfxStr key : String) : String :=
  pfxStr ++ upStr (replaceCh (replaceCh key '-' '_') '.' '_')

/-- `GetValueSource` from `internal/config/config.go`: environment variables
(`BD_`-prefixed, then legacy `BEADS_`-prefixed) win when non-empty, then
the config file, then the default.  `viperLoaded = none` embeds `v == nil`. -/
def GetValueSource (getenv : String → String) (viperLoaded : Option (String → Bool))
    (key : String) : ConfigSource :=
  match viperLoaded with
  | none => ConfigSource.default
  | some inConfig =>
    if getenv (envKeyOf "BD_" key) != "" then ConfigSource.envVar
    else if getenv (envKeyOf "BEADS_" key) != "" then ConfigSource.envVar
    else if inConfig key then ConfigSource.configFile
    else ConfigSource.default

/-- Modelled from the spec: the `validFieldStrategies` set is declared
outside `src/`; spec §4.2.1 lists the valid per-field strategies `newest`,
`ours`, `theirs`, `manual`, `union`, `max`. -/
def validFieldStrategies : List String :=
  ["newest", "ours", "theirs", "manual", "union", "max"]

/-- The normalization `GetFieldStrategies` applies to a configured strategy
string: `strings.ToLower(strings.TrimSpace(s))`. -/
def normalizeStrategy (s : String) : String := strToLower (strTrim s)

/-- `GetFieldStrategies` from `internal/config/config.go`: keep each
configured field whose normalized strategy is valid; invalid strategies are
logged and skipped. -/
def GetFieldStrategies (fieldsMap : List (String × String)) : List (String × String) :=
  fieldsMap.filterMap (fun p =>
    if validFieldStrategies.contains (normalizeStrategy p.2) then
      some (p.1, normalizeStrategy p.2)
    else none)

/-- First-match association lookup (Go map indexing on unique keys). -/
def lookupField : List (String × String) → String → Option String
  | [], _ => none
  | (k, v) :: rest, f => if k = f then some v else lookupField rest f

/-- `GetFieldStrategy` from `internal/config/config.go`: the per-field
strategy if configured and valid, otherwise `FieldStrategyNewest`. -/
def GetFieldStrategy (fieldsMap : List (String × String)) (field : String) : String :=
  match lookupField (GetFieldStrategies fieldsMap) field with
  | some st => st
  | none => "newest"

/-- Modelled from the spec: `GetConflictStrategy` is declared outside
`src/`; spec §4.2.1 and §4.3 give the globally configured conflict
strategy `conflict.strategy` (valid values `newest | ours | theirs |
manual`, default `newest`). -/
def GetConflictStrategy (configured : Option String) : String :=
  match configured with
  | some s =>
    if (["newest", "ours", "theirs", "manual"] : List String).contains s then s else "newest"
  | none => "newest"

/-! ## Safe config writer (`SaveConfigValue` / `setNestedKey`)

`SaveConfigValue` re-reads the YAML file on disk into a plain nested map,
sets the single dot-separated key with `setNestedKey`, and writes the
result back — it never serializes the merged viper state (defaults,
environment, overrides).  The YAML document is embedded as a nested
association list with unique keys (Go `map[string]interface{}` after
`yaml.Unmarshal`); the written file is the updated map.
-/

/-- A parsed YAML value: a scalar, a sequence, or a mapping. -/
inductive Yaml where
  | scalar (s : String)
  | arr (elems : List Yaml)
  | map (entries : List (String × Yaml))

/-- Go map read `m[k]` on an association list with unique keys. -/
def mapGet : List (String × Yaml) → String → Option Yaml
  | [], _ => none
  | (k, v) :: rest, f => if k = f then some v else mapGet rest f

/-- Go map write `m[k] = v`: replace the binding or append it. -/
def mapSet : List (String × Yaml) → String → Yaml → List (String × Yaml)
  | [], k, v => [(k, v)]
  | (k', v') :: rest, k, v =>
    if k' = k then (k, v) :: rest else (k', v') :: mapSet rest k v

/-- `m[parts[0]].(map[string]interface{})` with the `!ok` fallback to a
fresh empty map, as in `setNestedKey`. -/
def subMapOf (m : List (String × Yaml)) (k : String) : List (String × Yaml) :=
  match mapGet m k with
  | some (Yaml.map s) => s
  | _ => []

/-- `setNestedKey` from `internal/config/config.go`: set a value at a
dot-separated key path, materializing intermediate maps. -/
def setNestedKey : List (String × Yaml) → List String → Yaml → List (String × Yaml)
  | m, [], _ => m
  | m, [k], v => mapSet m k v
  | m, k :: k2 :: rest, v =>
    mapSet m k (Yaml.map (setNestedKey (subMapOf m k) (k2 :: rest) v))

/-- Read the value at a key path in the nested map (for stating the frame
property). -/
def lookupPath : List (String × Yaml) → List String → Option Yaml
  | _, [] => none
  | m, [k] => mapGet m k
  | m, k :: k2 :: rest =>
    match mapGet m k with
    | some (Yaml.map s) => lookupPath s (k2 :: rest)
    | _ => none

/-- Boolean list-prefix test on key paths. -/
def pathIsPfxOf : List String → List String → Bool
  | [], _ => true
  | _ :: _, [] => false
  | a :: as, b :: bs => a = b && pathIsPfxOf as bs

/-- `SaveConfigValue` from `internal/config/config.go`, restricted to its
effect on the file: the written YAML document is the existing file's
parsed contents with only the given key path set.  No viper state enters:
the result is a function of the file contents, the key and the value
alone. -/
def SaveConfigValue (existing : List (String × Yaml)) (key : String) (value : Yaml) :
    List (String × Yaml) :=
  setNestedKey existing (strSplitDots key) value

/-! ## Doctor engine: `CheckDatabaseVersion`

The file system and store probes the function performs are embedded as an
environment record holding each probe's observed result, in the order the
code consults them.
-/

/-- A doctor check's status (`StatusOK` / `StatusWarning` / `StatusError`). -/
inductive DoctorStatus where
  | ok
  | warning
  | error
deriving DecidableEq

/-- One doctor check result. -/
structure DoctorCheck where
  Name : String
  Status : DoctorStatus
  Message : String
  Detail : String := ""
  Fix : String := ""
deriving DecidableEq

/-- Observed results of the probes `CheckDatabaseVersion` performs. -/
structure VersionCheckEnv where
  /-- `getBackendAndBeadsDir` reported the Dolt backend. -/
  backendDolt : Bool
  /-- `os.Stat(beadsDir/dolt)` succeeded. -/
  doltDirExists : Bool
  /-- `dolt.NewFromConfigWithOptions` failed with this error. -/
  doltOpenError : Option String
  /-- `store.GetMetadata(ctx, "bd_version")` failed with this error. -/
  doltMetaError : Option String
  /-- the `bd_version` metadata value read from the Dolt store. -/
  doltBdVersion : String
  /-- `os.Stat(dbPath)` succeeded (the SQLite database file exists). -/
  dbFileExists : Bool
  /-- `os.Stat(beadsDir/issues.jsonl)` succeeded. -/
  issuesJsonlExists : Bool
  /-- `os.Stat(beadsDir/beads.jsonl)` succeeded. -/
  beadsJsonlExists : Bool
  /-- `isNoDbModeConfigured(beadsDir)`: `no-db: true` in config.yaml. -/
  noDbConfigured : Bool
  /-- `countIssuesInJSONLFile(jsonlPath)`. -/
  jsonlIssueCount : Nat
  /-- `detectPrefixFromJSONL(jsonlPath)` (empty when none detected). -/
  jsonlPfx : String
  /-- `getDatabaseVersionFromPath(dbPath)`. -/
  sqliteDbVersion : String
deriving DecidableEq

/-- The fresh-clone fix hint: the default hydrate hint, overridden with the
detected prefix when one was found. -/
def freshCloneFix (pfx : String) : String :=
  if pfx != "" then
    "Run \x27bd init\x27 to hydrate the database (detected prefix: " ++ pfx ++ ")"
  else
    "Run \x27bd init\x27 to hydrate the database from JSONL"

/-- `CheckDatabaseVersion` from the doctor package, over the observed probe
results. -/
def CheckDatabaseVersion (env : VersionCheckEnv) (cliVersion : String) : DoctorCheck :=
  if env.backendDolt then
    if !env.doltDirExists then
      if env.issuesJsonlExists || env.beadsJsonlExists then
        { Name := "Database", Status := DoctorStatus.warning,
          Message := "Fresh clone detected (no dolt database)",
          Detail := "Storage: Dolt",
          Fix := "Run \x27bd init\x27 to create and hydrate the dolt database" }
      else
        { Name := "Database", Status := DoctorStatus.error,
          Message := "No dolt database found",
          Detail := "Storage: Dolt",
          Fix := "Run \x27bd init\x27 to create database" }
    else
      match env.doltOpenError with
      | some e =>
        { Name := "Database", Status := DoctorStatus.error,
          Message := "Unable to open database",
          Detail := "Storage: Dolt\n\nError: " ++ e,
          Fix := "Run \x27bd doctor \x2d-fix\x27 to recover from JSONL backup, or manually: rm -rf .beads/dolt && bd init" }
      | none =>
        match env.doltMetaError with
        | some e =>
          { Name := "Database", Status := DoctorStatus.error,
            Message := "Unable to read database version",
            Detail := "Storage: Dolt\n\nError: " ++ e,
            Fix := "Database may be corrupted. Run \x27bd doctor \x2d-fix\x27 to recover from JSONL backup" }
        | none =>
          if env.doltBdVersion = "" then
            { Name := "Database", Status := DoctorStatus.warning,
              Message := "Database missing version metadata",
              Detail := "Storage: Dolt",
              Fix := "Run \x27bd doctor \x2d-fix\x27 to repair metadata" }
          else if env.doltBdVersion != cliVersion then
            { Name := "Database", Status := DoctorStatus.warning,
              Message := "version " ++ env.doltBdVersion ++ " (CLI: " ++ cliVersion ++ ")",
              Detail := "Storage: Dolt",
              Fix := "Update bd CLI and re-run (dolt metadata will be updated automatically)" }
          else
            { Name := "Database", Status := DoctorStatus.ok,
              Message := "version " ++ env.doltBdVersion,
              Detail := "Storage: Dolt" }
  else
    if !env.dbFileExists then
      if env.issuesJsonlExists || env.beadsJsonlExists then
        if env.noDbConfigured then
          { Name := "Database", Status := DoctorStatus.ok,
            Message := "JSONL-only mode",
            Detail := "Using issues.jsonl (no SQLite database)" }
        else
          { Name := "Database", Status := DoctorStatus.warning,
            Message := "Fresh clone detected (no database)",
            Detail := "Found " ++ toString env.jsonlIssueCount ++
              " issue(s) in JSONL that need to be imported",
            Fix := freshCloneFix env.jsonlPfx }
      else
        { Name := "Database", Status := DoctorStatus.error,
          Message := "No beads.db found",
          Fix := "Run \x27bd init\x27 to create database" }
    else
      if env.sqliteDbVersion = "unknown" then
        { Name := "Database", Status := DoctorStatus.error,
          Message := "Unable to read database version",
          Detail := "Storage: SQLite",
          Fix := "Database may be corrupted. Try \x27bd migrate\x27" }
      else if env.sqliteDbVersion = "pre-0.17.5" then
        { Name := "Database", Status := DoctorStatus.warning,
          Message := "version " ++ env.sqliteDbVersion ++ " (very old)",
          Detail := "Storage: SQLite",
          Fix := "Run \x27bd migrate\x27 to upgrade database schema" }
      else if env.sqliteDbVersion != cliVersion then
        { Name := "Database", Status := DoctorStatus.warning,
          Message := "version " ++ env.sqliteDbVersion ++ " (CLI: " ++ cliVersion ++ ")",
          Detail := "Storage: SQLite",
          Fix := "Run \x27bd migrate\x27 to sync database with CLI version" }
      else
        { Name := "Database", Status := DoctorStatus.ok,
          Message := "version " ++ env.sqliteDbVersion,
          Detail := "Storage: SQLite" }

/-! ## Dolt backend commands (`testServerConnection`, `setDoltConfig`)

From `src/cmd/bd/dolt.go`.  The TCP dialer is embedded as an oracle
mapping (network, address, timeout in milliseconds) to success, and
`os.Exit(1)` on invalid input becomes an explicit `exitErr` result
produced before the audit-log append and the `cfg.Save` call.
-/

/-- The 3-second dial timeout of `testServerConnection`, in milliseconds. -/
def dialTimeoutMillis : Nat := 3000

/-- `net.JoinHostPort`: bracket the host when it contains a colon. -/
def joinHostPort (host portStr : String) : String :=
  if strContains host ":" then "[" ++ host ++ "]:" ++ portStr
  else host ++ ":" ++ portStr

/-- `testServerConnection` from `src/cmd/bd/dolt.go`: dial TCP at the
configured host and port with a 3-second timeout; true exactly when the
dial succeeds. -/
def testServerConnection (dial : String → String → Nat → Bool) (host : String)
    (portNum : Nat) : Bool :=
  dial "tcp" (joinHostPort host (toString portNum)) dialTimeoutMillis

/-- `strconv.Atoi`: optional sign followed by at least one digit.
(Go additionally rejects values outside the machine int range; such values
are equally rejected here by `setDoltConfig`'s port-range check.) -/
def goAtoi (s : String) : Option Int :=
  match s.data with
  | '+' :: rest => (parseDigits rest).map (fun n => (n : Int))
  | '-' :: rest => (parseDigits rest).map (fun n => -(n : Int))
  | l => (parseDigits l).map (fun n => (n : Int))

/-- The Dolt-relevant fields of `metadata.json` (`configfile.Config`). -/
structure DoltConfigFile where
  doltMode : String
  doltDatabase : String
  doltServerHost : String
  doltServerPort : Int
  doltServerUser : String
deriving DecidableEq

/-- Outcome of `setDoltConfig`: either `os.Exit(1)` on invalid input
(before the audit-log append and the save), or the saved configuration
together with the audit entry's key/value and the config.yaml key. -/
inductive SetDoltResult where
  | exitErr
  | saved (cfg : DoltConfigFile) (auditKey auditValue yamlKey : String)
deriving DecidableEq

/-- `setDoltConfig` from `src/cmd/bd/dolt.go` (the key/value switch and
the subsequent audit-log + save, in the repository-found, Dolt-backend
scenario of the claim). -/
def setDoltConfig (key value : String) (cfg : DoltConfigFile) : SetDoltResult :=
  if key = "mode" then
    if value ≠ "embedded" ∧ value ≠ "server" then SetDoltResult.exitErr
    else SetDoltResult.saved { cfg with doltMode := value } key value "dolt.mode"
  else if key = "database" then
    if value = "" then SetDoltResult.exitErr
    else SetDoltResult.saved { cfg with doltDatabase := value } key value "dolt.database"
  else if key = "host" then
    if value = "" then SetDoltResult.exitErr
    else SetDoltResult.saved { cfg with doltServerHost := value } key value "dolt.host"
  else if key = "port" then
    match goAtoi value with
    | none => SetDoltResult.exitErr
    | some p =>
      if p ≤ 0 ∨ 65535 < p then SetDoltResult.exitErr
      else SetDoltResult.saved { cfg with doltServerPort := p } key value "dolt.port"
  else if key = "user" then
    if value = "" then SetDoltResult.exitErr
    else SetDoltResult.saved { cfg with doltServerUser := value } key value "dolt.user"
  else SetDoltResult.exitErr

/-- The contents of `metadata.json` after a `setDoltConfig` run that
started from `cfg`: unchanged unless the run saved. -/
def metadataAfter (cfg : DoltConfigFile) : SetDoltResult → DoltConfigFile
  | SetDoltResult.exitErr => cfg
  | SetDoltResult.saved c _ _ _ => c

/-- The audit-log entries appended by a `setDoltConfig` run. -/
def auditEntriesAfter : SetDoltResult → List (String × String)
  | SetDoltResult.exitErr => []
  | SetDoltResult.saved _ k v _ => [(k, v)]

/-! ## Sample inputs used by witnesses and counterexamples -/

/-- A two-entry changelog, newest first, for concrete evaluation. -/
def sampleChanges : List VersionChange :=
  [{ Version := "0.23.0", Date := "2025-01-02", Changes := ["b"] },
   { Version := "0.22.0", Date := "2025-01-01", Changes := ["a"] }]

/-- SQLite backend, no database file, no JSONL file, `no-db: true`
configured. -/
def noDbNoJsonlEnv : VersionCheckEnv :=
  { backendDolt := false, doltDirExists := false, doltOpenError := none,
    doltMetaError := none, doltBdVersion := "", dbFileExists := false,
    issuesJsonlExists := false, beadsJsonlExists := false, noDbConfigured := true,
    jsonlIssueCount := 0, jsonlPfx := "", sqliteDbVersion := "" }

/-- SQLite backend, no database file, `issues.jsonl` present, `no-db: true`
configured. -/
def jsonlOnlyEnv : VersionCheckEnv :=
  { backendDolt := false, doltDirExists := false, doltOpenError := none,
    doltMetaError := none, doltBdVersion := "", dbFileExists := false,
    issuesJsonlExists := true, beadsJsonlExists := false, noDbConfigured := true,
    jsonlIssueCount := 7, jsonlPfx := "bd", sqliteDbVersion := "" }

/-- A two-key YAML file: a nested `sync.mode` and an unrelated
`hierarchy.max-depth`. -/
def sampleYamlFile : List (String × Yaml) :=
  [("sync", Yaml.map [("mode", Yaml.scalar "git-portable")]),
   ("hierarchy", Yaml.map [("max-depth", Yaml.scalar "3")])]

/-- The default Dolt configuration of `metadata.json`. -/
def sampleDoltCfg : DoltConfigFile :=
  { doltMode := "embedded", doltDatabase := "beads", doltServerHost := "127.0.0.1",
    doltServerPort := 3307, doltServerUser := "root" }

/-! # Theorems -/

/-! Helper lemmas about `verListLt`. -/

theorem verListLt_irrefl : ∀ l : List Nat, verListLt l l = false := by
  intro l
  induction l with
  | nil => rfl
  | cons a as ih => simp [verListLt, ih]

theorem verListLt_asymm : ∀ a b : List Nat, verListLt a b = true → verListLt b a = false := by
  intro a
  induction a with
  | nil =>
    intro b h
    cases b with
    | nil => simp [verListLt] at h
    | cons x xs => simp [verListLt]
  | cons x xs ih =>
    intro b h
    cases b with
    | nil => simp [verListLt] at h
    | cons y ys =>
      simp only [verListLt] at h ⊢
      by_cases hxy : x < y
      · have hyx : ¬ y < x := Nat.not_lt.mpr (Nat.le_of_lt hxy)
        simp [hxy, hyx]
      · by_cases hyx : y < x
        · simp [hxy, hyx] at h
        · have heq : x = y := Nat.le_antisymm (Nat.not_lt.mp hyx) (Nat.not_lt.mp hxy)
          subst heq
          simp [hxy] at h ⊢
          exact ih ys h

theorem verLt_asymm (a b : String) (h : verLt a b = true) : verLt b a = false :=
  verListLt_asymm _ _ h

theorem verLt_ne (a b : String) (h : verLt a b = true) : a ≠ b := by
  intro he
  subst he
  rw [verLt, verListLt_irrefl] at h
  exact Bool.false_ne_true h

/-- Claim C1: for every version string `v`, `getVersionsSince v` returns
exactly the changelog entries strictly newer than `v` (the entries before
the first occurrence of `v` in the newest-first table), oldest-first, never
including `v` itself; when `v` is empty or does not occur, the whole
changelog in chronological order (so its length equals the changelog's);
when `v` is the latest entry's version, the empty list.  Spec-modelled:
`getVersionsSince` and `versionChanges` live in the main package, not under
`src/`. -/
theorem getVersionsSince_spec (changes : List VersionChange) (fromV : String) :
    (fromV = "" → getVersionsSince changes fromV = changes.reverse)
    ∧ ((∀ c ∈ changes, c.Version ≠ fromV) →
        getVersionsSince changes fromV = changes.reverse ∧
        (getVersionsSince changes fromV).length = changes.length)
    ∧ (fromV ≠ "" → ∀ c ∈ getVersionsSince changes fromV, c.Version ≠ fromV)
    ∧ (∀ hd tl, changes = hd :: tl → hd.Version = fromV → fromV ≠ "" →
        getVersionsSince changes fromV = [])
    ∧ (fromV ≠ "" → (∃ c ∈ changes, c.Version = fromV) →
        getVersionsSince changes fromV =
          (changes.takeWhile (fun c => c.Version != fromV)).reverse)
    ∧ (changes.Pairwise (fun a b => b.Date ≤ a.Date) →
        (getVersionsSince changes fromV).Pairwise (fun a b => a.Date ≤ b.Date)) := by
  refine ⟨?_, ?_, ?_, ?_, ?_, ?_⟩
  · intro h
    simp [getVersionsSince, h]
  · intro h
    have hall : changes.all (fun c => c.Version != fromV) = true := by
      rw [List.all_eq_true]
      intro c hc
      exact bne_iff_ne.mpr (h c hc)
    by_cases hf : fromV = "" <;>
      simp [getVersionsSince, hf, hall, List.length_reverse]
  · intro hne c hc
    by_cases hall : changes.all (fun c => c.Version != fromV) = true
    · rw [getVersionsSince, if_neg hne, if_pos hall] at hc
      rw [List.mem_reverse] at hc
      exact bne_iff_ne.mp (List.all_eq_true.mp hall c hc)
    · rw [getVersionsSince, if_neg hne, if_neg hall] at hc
      rw [List.mem_reverse] at hc
      have hpc := List.mem_takeWhile_imp (p := fun c : VersionChange => c.Version != fromV) hc
      exact bne_iff_ne.mp hpc
  · intro hd tl hchanges hver hne
    subst hchanges
    have hall : ¬ ((hd :: tl).all (fun c => c.Version != fromV) = true) := by
      rw [List.all_eq_true]
      intro h
      exact absurd hver (bne_iff_ne.mp (h hd (List.mem_cons_self hd tl)))
    rw [getVersionsSince, if_neg hne, if_neg hall]
    have hp : (fun c : VersionChange => c.Version != fromV) hd = false := by
      simp [hver]
    simp [List.takeWhile, hp]
  · intro hne hex
    have hall : ¬ (changes.all (fun c => c.Version != fromV) = true) := by
      rw [List.all_eq_true]
      intro h
      obtain ⟨c, hc, hv⟩ := hex
      exact absurd hv (bne_iff_ne.mp (h c hc))
    rw [getVersionsSince, if_neg hne, if_neg hall]
  · intro hp
    have key : ∀ l : List VersionChange, l.Sublist changes →
        l.reverse.Pairwise (fun a b => a.Date ≤ b.Date) := by
      intro l hl
      rw [List.pairwise_reverse]
      exact List.Pairwise.sublist hl hp
    rw [getVersionsSince]
    by_cases hf : fromV = ""
    · rw [if_pos hf]; exact key changes (List.Sublist.refl changes)
    · rw [if_neg hf]
      by_cases hall : changes.all (fun c => c.Version != fromV) = true
      · rw [if_pos hall]; exact key changes (List.Sublist.refl changes)
      · rw [if_neg hall]
        exact key _ (List.takeWhile_sublist _)

/-- Witness for C1: on the concrete two-entry changelog, the latest version
yields the empty list and the empty version yields the whole table reversed. -/
theorem getVersionsSince_spec_witness :
    getVersionsSince sampleChanges "0.23.0" = [] ∧
    getVersionsSince sampleChanges "" = sampleChanges.reverse := by
  constructor
  · exact (getVersionsSince_spec sampleChanges "0.23.0").2.2.2.1 _ _ rfl rfl (by decide)
  · exact (getVersionsSince_spec sampleChanges "").1 rfl

/-- Claim C2: when `.local_version` holds a version strictly newer than the
binary (a downgrade), `trackBdVersion` leaves `upgradeDetected = false`,
leaves `previousVersion` empty, and still overwrites the file with the
binary's current version.  Spec-modelled: `trackBdVersion` lives in the
main package, not under `src/`. -/
theorem trackBdVersion_downgrade (binaryVersion fv : String)
    (h : verLt binaryVersion fv = true) :
    trackBdVersion binaryVersion (some fv) =
      { upgradeDetected := false, previousVersion := "", localVersionFile := binaryVersion } := by
  have h1 : verLt fv binaryVersion = false := verLt_asymm _ _ h
  have h2 : fv ≠ binaryVersion := fun he => verLt_ne _ _ h he.symm
  simp [trackBdVersion, h1, h2]

/-- Witness for C2: seeding the file with "99.99.99" while the binary is
"0.23.0" reports no upgrade, no previous version, and rewrites the file. -/
theorem trackBdVersion_downgrade_witness :
    trackBdVersion "0.23.0" (some "99.99.99") =
      { upgradeDetected := false, previousVersion := "", localVersionFile := "0.23.0" } :=
  trackBdVersion_downgrade "0.23.0" "99.99.99" (by decide)

/-- Claim C8: when no `.local_version` file exists, `trackBdVersion`
creates the file containing the binary's current version and reports no
upgrade.  Spec-modelled: `trackBdVersion` lives in the main package, not
under `src/`. -/
theorem trackBdVersion_firstRun (binaryVersion : String) :
    trackBdVersion binaryVersion none =
      { upgradeDetected := false, previousVersion := "", localVersionFile := binaryVersion } :=
  rfl

/-- Counterexample to C3: the substring cases of `classifyDatabaseError`
are ordered, so a message that contains both "database is locked" and
"not a database" is classified as locked, not as a corrupted file — the
claim's unconditional "a message containing \x27not a database\x27 yields the
corrupted-file classification" is false. -/
theorem classifyDatabaseError_counterexample :
    strContains "database is locked: file is not a database" "not a database" = true ∧
    (classifyDatabaseError "database is locked: file is not a database" 3 true).1 =
      "Database is locked" ∧
    (classifyDatabaseError "database is locked: file is not a database" 3 true).1 ≠
      "File is not a valid SQLite database" := by
  refine ⟨by decide, by decide, by decide⟩

/-- Claim C3 (amended): `classifyDatabaseError` is a total function of the
message, the JSONL count and the availability flag, and matches the four
classifications in order: "database is locked" yields the locked
classification; otherwise "not a database" yields the corrupted-file
classification whose recovery steps interpolate the JSONL count when
available; otherwise "migration" or "validation failed" yields the
migration/validation classification (rebuild from JSONL with the known
count when available, else repair in place); every remaining message
yields the generic classification. -/
theorem classifyDatabaseError_cases (errMsg : String) (jsonlCount : Int) (jsonlAvailable : Bool) :
    (strContains errMsg "database is locked" = true →
      classifyDatabaseError errMsg jsonlCount jsonlAvailable =
        ("Database is locked", lockedRecoverySteps))
    ∧ (strContains errMsg "database is locked" = false →
       (strContains errMsg "not a database" = true ∨
        strContains errMsg "file is not a database" = true) →
      classifyDatabaseError errMsg jsonlCount jsonlAvailable =
        ("File is not a valid SQLite database",
          if jsonlAvailable then notADatabaseStepsJsonl jsonlCount else notADatabaseStepsNoJsonl))
    ∧ (strContains errMsg "database is locked" = false →
       strContains errMsg "not a database" = false →
       strContains errMsg "file is not a database" = false →
       (strContains errMsg "migration" = true ∨
        strContains errMsg "validation failed" = true) →
      classifyDatabaseError errMsg jsonlCount jsonlAvailable =
        ("Database migration or validation failed",
          if jsonlAvailable then migrationStepsJsonl jsonlCount else migrationStepsNoJsonl))
    ∧ (strContains errMsg "database is locked" = false →
       strContains errMsg "not a database" = false →
       strContains errMsg "file is not a database" = false →
       strContains errMsg "migration" = false →
       strContains errMsg "validation failed" = false →
      classifyDatabaseError errMsg jsonlCount jsonlAvailable =
        ("Failed to open database",
          if jsonlAvailable then genericStepsJsonl jsonlCount else genericStepsNoJsonl)) := by
  refine ⟨?_, ?_, ?_, ?_⟩
  · intro h1
    simp [classifyDatabaseError, h1]
  · intro h1 h2
    rcases h2 with h2 | h2 <;> simp [classifyDatabaseError, h1, h2]
  · intro h1 h2 h3 h4
    rcases h4 with h4 | h4 <;> simp [classifyDatabaseError, h1, h2, h3, h4]
  · intro h1 h2 h3 h4 h5
    simp [classifyDatabaseError, h1, h2, h3, h4, h5]

/-- Witness for the amended C3: a pure "not a database" message with an
available 4-issue JSONL backup is classified as a corrupted file with the
count in the recovery steps. -/
theorem classifyDatabaseError_cases_witness :
    classifyDatabaseError "file is not a database" 4 true =
      ("File is not a valid SQLite database", notADatabaseStepsJsonl 4) := by
  have h := (classifyDatabaseError_cases "file is not a database" 4 true).2.1
    (by decide) (Or.inl (by decide))
  simpa using h

/-- Counterexample to C4: for a field configured with an invalid strategy,
`GetFieldStrategy` returns the hard-coded default "newest", not the
globally configured conflict strategy — with the global strategy set to
"ours" the two differ. -/
theorem fieldStrategy_counterexample :
    GetConflictStrategy (some "ours") = "ours" ∧
    GetFieldStrategies [("labels", "bogus")] = [] ∧
    GetFieldStrategy [("labels", "bogus")] "labels" = "newest" ∧
    GetFieldStrategy [("labels", "bogus")] "labels" ≠ GetConflictStrategy (some "ours") := by
  refine ⟨by decide, by decide, by decide, by decide⟩

/-- Claim C4 (amended): for every field all of whose configured per-field
strategies are invalid (after trimming and lowercasing),
`GetFieldStrategies` omits the field from its result and `GetFieldStrategy`
returns the hard-coded default strategy "newest" — not the globally
configured conflict strategy. -/
theorem fieldStrategy_invalid_ignored (fieldsMap : List (String × String)) (field : String)
    (hinv : ∀ p ∈ fieldsMap, p.1 = field →
      validFieldStrategies.contains (normalizeStrategy p.2) = false) :
    lookupField (GetFieldStrategies fieldsMap) field = none ∧
    GetFieldStrategy fieldsMap field = "newest" := by
  have hlook : ∀ l : List (String × String),
      (∀ p ∈ l, p.1 = field →
        validFieldStrategies.contains (normalizeStrategy p.2) = false) →
      lookupField (GetFieldStrategies l) field = none := by
    intro l
    induction l with
    | nil => intro _; rfl
    | cons p rest ih =>
      intro hl
      obtain ⟨k, s⟩ := p
      have hrest : ∀ p ∈ rest, p.1 = field →
          validFieldStrategies.contains (normalizeStrategy p.2) = false :=
        fun p hp => hl p (List.mem_cons_of_mem _ hp)
      by_cases hv : validFieldStrategies.contains (normalizeStrategy s) = true
      · have hk : k ≠ field := by
          intro hk
          have := hl (k, s) (List.mem_cons_self _ _) hk
          rw [this] at hv
          exact Bool.false_ne_true hv
        simp only [GetFieldStrategies, List.filterMap_cons, hv, if_pos]
        simp only [lookupField, if_neg hk]
        exact ih hrest
      · have hv' : validFieldStrategies.contains (normalizeStrategy s) = false :=
          Bool.eq_false_iff.mpr hv
        simp only [GetFieldStrategies, List.filterMap_cons, hv', Bool.false_eq_true, if_false]
        exact ih hrest
  refine ⟨hlook fieldsMap hinv, ?_⟩
  rw [GetFieldStrategy, hlook fieldsMap hinv]

/-- Witness for the amended C4: "labels" configured with the invalid
strategy "bogus" beside a valid "max" on another field is omitted and
falls back to "newest". -/
theorem fieldStrategy_invalid_ignored_witness :
    lookupField (GetFieldStrategies [("labels", "bogus"), ("compaction_level", "max")])
      "labels" = none ∧
    GetFieldStrategy [("labels", "bogus"), ("compaction_level", "max")] "labels" = "newest" :=
  fieldStrategy_invalid_ignored _ "labels" (by decide)

/-- Claim C9: `GetValueSource` reports the environment as the source
exactly when the `BD_`-prefixed or legacy `BEADS_`-prefixed variable
(dots and hyphens mapped to underscores, uppercased) is non-empty; an
empty environment variable is treated as unset, and the source falls
through to the config file when the key is present there and to the
default otherwise. -/
theorem GetValueSource_spec (getenv : String → String) (inConfig : String → Bool)
    (key : String) :
    (GetValueSource getenv (some inConfig) key = ConfigSource.envVar ↔
      (getenv (envKeyOf "BD_" key) ≠ "" ∨ getenv (envKeyOf "BEADS_" key) ≠ ""))
    ∧ (getenv (envKeyOf "BD_" key) = "" → getenv (envKeyOf "BEADS_" key) = "" →
        GetValueSource getenv (some inConfig) key =
          (if inConfig key then ConfigSource.configFile else ConfigSource.default)) := by
  constructor
  · constructor
    · intro h
      by_cases h1 : getenv (envKeyOf "BD_" key) = ""
      · by_cases h2 : getenv (envKeyOf "BEADS_" key) = ""
        · exfalso
          rw [GetValueSource] at h
          simp only [h1, h2, bne_self_eq_false, Bool.false_eq_true, if_false] at h
          by_cases h3 : inConfig key <;> simp [h3] at h
        · exact Or.inr h2
      · exact Or.inl h1
    · intro h
      rcases h with h | h
      · have hb : (getenv (envKeyOf "BD_" key) != "") = true := bne_iff_ne.mpr h
        simp [GetValueSource, hb]
      · by_cases h1 : getenv (envKeyOf "BD_" key) = ""
        · have hb : (getenv (envKeyOf "BEADS_" key) != "") = true := bne_iff_ne.mpr h
          simp [GetValueSource, h1, hb]
        · have hb : (getenv (envKeyOf "BD_" key) != "") = true := bne_iff_ne.mpr h1
          simp [GetValueSource, hb]
  · intro h1 h2
    simp [GetValueSource, h1, h2]

/-- Witness for C9: with an empty environment and the key present in the
config file, the reported source is the config file. -/
theorem GetValueSource_spec_witness :
    GetValueSource (fun _ => "") (some (fun _ => true)) "sync.mode" = ConfigSource.configFile := by
  have h := (GetValueSource_spec (fun _ => "") (fun _ => true) "sync.mode").2 rfl rfl
  simpa using h

/-- Counterexample to C5: with the database file absent, no JSONL present,
and no-db mode configured, `CheckDatabaseVersion` returns the
"No beads.db found" error — the claim's unconditional "if no-db mode is
configured, it returns ok" is false: the ok result requires a JSONL file. -/
theorem CheckDatabaseVersion_counterexample :
    noDbNoJsonlEnv.noDbConfigured = true ∧
    noDbNoJsonlEnv.dbFileExists = false ∧
    (CheckDatabaseVersion noDbNoJsonlEnv "0.23.0").Status = DoctorStatus.error ∧
    (CheckDatabaseVersion noDbNoJsonlEnv "0.23.0").Message = "No beads.db found" ∧
    (CheckDatabaseVersion noDbNoJsonlEnv "0.23.0").Status ≠ DoctorStatus.ok := by
  refine ⟨rfl, rfl, rfl, rfl, by decide⟩

/-- Claim C5 (amended): when the SQLite database file is absent,
`CheckDatabaseVersion` distinguishes three states: a JSONL file present
with no-db mode not configured is a fresh-clone warning with a hydrate
hint; a JSONL file present with no-db mode configured is ok (JSONL-only
mode); neither database nor JSONL is the "No beads.db found" error. -/
theorem CheckDatabaseVersion_absentDb (env : VersionCheckEnv) (cliVersion : String)
    (hb : env.backendDolt = false) (hdb : env.dbFileExists = false) :
    ((env.issuesJsonlExists || env.beadsJsonlExists) = true → env.noDbConfigured = false →
      CheckDatabaseVersion env cliVersion =
        { Name := "Database", Status := DoctorStatus.warning,
          Message := "Fresh clone detected (no database)",
          Detail := "Found " ++ toString env.jsonlIssueCount ++
            " issue(s) in JSONL that need to be imported",
          Fix := freshCloneFix env.jsonlPfx })
    ∧ ((env.issuesJsonlExists || env.beadsJsonlExists) = true → env.noDbConfigured = true →
      CheckDatabaseVersion env cliVersion =
        { Name := "Database", Status := DoctorStatus.ok,
          Message := "JSONL-only mode",
          Detail := "Using issues.jsonl (no SQLite database)", Fix := "" })
    ∧ ((env.issuesJsonlExists || env.beadsJsonlExists) = false →
      CheckDatabaseVersion env cliVersion =
        { Name := "Database", Status := DoctorStatus.error,
          Message := "No beads.db found",
          Detail := "", Fix := "Run \x27bd init\x27 to create database" }) := by
  refine ⟨?_, ?_, ?_⟩
  · intro hj hn
    simp [CheckDatabaseVersion, hb, hdb, hj, hn]
  · intro hj hn
    simp [CheckDatabaseVersion, hb, hdb, hj, hn]
  · intro hj
    simp [CheckDatabaseVersion, hb, hdb, hj]

/-- Witness for the amended C5: JSONL present and `no-db: true` yields the
ok JSONL-only check. -/
theorem CheckDatabaseVersion_absentDb_witness :
    CheckDatabaseVersion jsonlOnlyEnv "0.23.0" =
      { Name := "Database", Status := DoctorStatus.ok,
        Message := "JSONL-only mode",
        Detail := "Using issues.jsonl (no SQLite database)", Fix := "" } :=
  (CheckDatabaseVersion_absentDb jsonlOnlyEnv "0.23.0" rfl rfl).2.1 rfl rfl

/-! Helper lemmas for the `SaveConfigValue` frame property. -/

theorem mapGet_mapSet_self (m : List (String × Yaml)) (k : String) (v : Yaml) :
    mapGet (mapSet m k v) k = some v := by
  induction m with
  | nil => simp [mapSet, mapGet]
  | cons p rest ih =>
    obtain ⟨k', v'⟩ := p
    by_cases h : k' = k
    · simp [mapSet, h, mapGet]
    · simp [mapSet, h, mapGet, ih]

theorem mapGet_mapSet_ne (m : List (String × Yaml)) (k k' : String) (v : Yaml)
    (h : k' ≠ k) : mapGet (mapSet m k v) k' = mapGet m k' := by
  induction m with
  | nil => simp [mapSet, mapGet, Ne.symm h]
  | cons p rest ih =>
    obtain ⟨k'', v''⟩ := p
    by_cases h2 : k'' = k
    · subst h2
      simp [mapSet, mapGet, Ne.symm h]
    · simp only [mapSet, h2, if_false]
      by_cases h3 : k'' = k'
      · simp [mapGet, h3]
      · simp [mapGet, h3, ih]

theorem lookupPath_nil_map (q : List String) (hq : q ≠ []) :
    lookupPath [] q = none := by
  cases q with
  | nil => exact absurd rfl hq
  | cons k rest =>
    cases rest with
    | nil => rfl
    | cons k2 rest2 => rfl

theorem lookupPath_congr_head (m1 m2 : List (String × Yaml)) (k : String) (q : List String)
    (h : mapGet m1 k = mapGet m2 k) :
    lookupPath m1 (k :: q) = lookupPath m2 (k :: q) := by
  cases q with
  | nil => simpa [lookupPath] using h
  | cons k2 rest => simp [lookupPath, h]

theorem lookupPath_cons₂ (m : List (String × Yaml)) (k k2 : String) (q : List String)
    (s : List (String × Yaml)) (h : mapGet m k = some (Yaml.map s)) :
    lookupPath m (k :: k2 :: q) = lookupPath s (k2 :: q) := by
  simp [lookupPath, h]

theorem lookupPath_setNestedKey_frame :
    ∀ (p : List String) (m : List (String × Yaml)) (q : List String) (v : Yaml),
      q ≠ [] → pathIsPfxOf p q = false → pathIsPfxOf q p = false →
      lookupPath (setNestedKey m p v) q = lookupPath m q := by
  intro p
  induction p with
  | nil =>
    intro m q v hq hpq hqp
    exact absurd hpq (by simp [pathIsPfxOf])
  | cons k p' ih =>
    intro m q v hq hpq hqp
    cases q with
    | nil => exact absurd rfl hq
    | cons k' q' =>
      by_cases hk : k = k'
      · subst hk
        cases p' with
        | nil =>
          exfalso
          simp [pathIsPfxOf] at hpq
        | cons k2 rest =>
          cases q' with
          | nil =>
            exfalso
            simp [pathIsPfxOf] at hqp
          | cons k'' q'' =>
            have hpq' : pathIsPfxOf (k2 :: rest) (k'' :: q'') = false := by
              simpa [pathIsPfxOf] using hpq
            have hqp' : pathIsPfxOf (k'' :: q'') (k2 :: rest) = false := by
              simpa [pathIsPfxOf] using hqp
            have hset : setNestedKey m (k :: k2 :: rest) v =
                mapSet m k (Yaml.map (setNestedKey (subMapOf m k) (k2 :: rest) v)) := rfl
            rw [hset]
            have hget : mapGet
                (mapSet m k (Yaml.map (setNestedKey (subMapOf m k) (k2 :: rest) v))) k =
                some (Yaml.map (setNestedKey (subMapOf m k) (k2 :: rest) v)) :=
              mapGet_mapSet_self _ _ _
            rw [lookupPath_cons₂ _ _ _ _ _ hget]
            rw [ih (subMapOf m k) (k'' :: q'') v (by simp) hpq' hqp']
            cases hm : mapGet m k with
            | none =>
              have h1 : subMapOf m k = [] := by simp [subMapOf, hm]
              rw [h1, lookupPath_nil_map _ (List.cons_ne_nil _ _)]
              simp [lookupPath, hm]
            | some y =>
              cases y with
              | scalar s =>
                have h1 : subMapOf m k = [] := by simp [subMapOf, hm]
                rw [h1, lookupPath_nil_map _ (List.cons_ne_nil _ _)]
                simp [lookupPath, hm]
              | arr l =>
                have h1 : subMapOf m k = [] := by simp [subMapOf, hm]
                rw [h1, lookupPath_nil_map _ (List.cons_ne_nil _ _)]
                simp [lookupPath, hm]
              | map s =>
                have h1 : subMapOf m k = s := by simp [subMapOf, hm]
                rw [h1, lookupPath_cons₂ m k k'' q'' s hm]
      · have hkk : k' ≠ k := fun h => hk h.symm
        cases p' with
        | nil =>
          have hset : setNestedKey m [k] v = mapSet m k v := rfl
          rw [hset]
          exact lookupPath_congr_head _ _ _ _ (mapGet_mapSet_ne m k k' v hkk)
        | cons k2 rest =>
          have hset : setNestedKey m (k :: k2 :: rest) v =
              mapSet m k (Yaml.map (setNestedKey (subMapOf m k) (k2 :: rest) v)) := rfl
          rw [hset]
          exact lookupPath_congr_head _ _ _ _ (mapGet_mapSet_ne m k k' _ hkk)

/-- Claim C6: `SaveConfigValue` modifies only the given dot-separated key
path in the YAML file: every key path diverging from it (neither a prefix
of the other) keeps the value it had in the file.  The written document is
by definition a function of the existing file contents, the key and the
value alone — no defaults, environment values, or other merged viper state
reach the disk. -/
theorem SaveConfigValue_frame (existing : List (String × Yaml)) (key : String) (value : Yaml)
    (q : List String) (hq : q ≠ [])
    (h1 : pathIsPfxOf (strSplitDots key) q = false)
    (h2 : pathIsPfxOf q (strSplitDots key) = false) :
    lookupPath (SaveConfigValue existing key value) q = lookupPath existing q :=
  lookupPath_setNestedKey_frame (strSplitDots key) existing q value hq h1 h2

/-- Witness for C6: setting `sync.mode` leaves `hierarchy.max-depth` with
its old value. -/
theorem SaveConfigValue_frame_witness :
    lookupPath (SaveConfigValue sampleYamlFile "sync.mode" (Yaml.scalar "realtime"))
      ["hierarchy", "max-depth"] = some (Yaml.scalar "3") := by
  have h := SaveConfigValue_frame sampleYamlFile "sync.mode" (Yaml.scalar "realtime")
    ["hierarchy", "max-depth"] (by decide) (by decide) (by decide)
  rw [h]
  rfl

/-- Claim C7: `testServerConnection` dials the configured host and port
over TCP with a 3-second timeout, returns true exactly when the dial
succeeds, and in particular returns false for the unreachable host
`192.0.2.1:3307` when that dial fails. -/
theorem testServerConnection_spec (dial : String → String → Nat → Bool) (host : String)
    (portNum : Nat) :
    (testServerConnection dial host portNum =
      dial "tcp" (joinHostPort host (toString portNum)) 3000)
    ∧ (testServerConnection dial host portNum = true ↔
        dial "tcp" (joinHostPort host (toString portNum)) 3000 = true)
    ∧ (dial "tcp" "192.0.2.1:3307" 3000 = false →
        testServerConnection dial "192.0.2.1" 3307 = false) := by
  refine ⟨rfl, Iff.rfl, ?_⟩
  intro h
  have haddr : joinHostPort "192.0.2.1" (toString (3307 : Nat)) = "192.0.2.1:3307" := by decide
  rw [testServerConnection, haddr]
  exact h

/-- Witness for C7: with a dialer that always fails, probing `192.0.2.1`
port `3307` returns false. -/
theorem testServerConnection_spec_witness :
    testServerConnection (fun _ _ _ => false) "192.0.2.1" 3307 = false :=
  (testServerConnection_spec (fun _ _ _ => false) "192.0.2.1" 3307).2.2 rfl

/-- Claim C10: `setDoltConfig` exits with an error — before appending an
audit-log entry and before saving, leaving `metadata.json` unchanged — for
every `port` value that does not parse as an integer in 1..65535, for an
empty `database`, `host` or `user` value, for a `mode` value other than
"embedded" or "server", and for an unknown key. -/
theorem setDoltConfig_invalid_atomic (cfg : DoltConfigFile) (key value : String) :
    ((match goAtoi value with
      | none => True
      | some p => p ≤ 0 ∨ 65535 < p) →
      setDoltConfig "port" value cfg = SetDoltResult.exitErr)
    ∧ setDoltConfig "database" "" cfg = SetDoltResult.exitErr
    ∧ setDoltConfig "host" "" cfg = SetDoltResult.exitErr
    ∧ setDoltConfig "user" "" cfg = SetDoltResult.exitErr
    ∧ (value ≠ "embedded" → value ≠ "server" →
        setDoltConfig "mode" value cfg = SetDoltResult.exitErr)
    ∧ (key ∉ (["mode", "database", "host", "port", "user"] : List String) →
        setDoltConfig key value cfg = SetDoltResult.exitErr)
    ∧ (∀ k v, setDoltConfig k v cfg = SetDoltResult.exitErr →
        metadataAfter cfg (setDoltConfig k v cfg) = cfg ∧
        auditEntriesAfter (setDoltConfig k v cfg) = []) := by
  refine ⟨?_, ?_, ?_, ?_, ?_, ?_, ?_⟩
  · intro h
    cases hg : goAtoi value with
    | none => simp [setDoltConfig, hg]
    | some p =>
      rw [hg] at h
      rcases h with h | h <;> simp [setDoltConfig, hg, h]
  · rfl
  · rfl
  · rfl
  · intro h1 h2
    simp [setDoltConfig, h1, h2]
  · intro hmem
    simp only [List.mem_cons, List.not_mem_nil, or_false, not_or] at hmem
    obtain ⟨h1, h2, h3, h4, h5⟩ := hmem
    simp [setDoltConfig, h1, h2, h3, h4, h5]
  · intro k v h
    rw [h]
    exact ⟨rfl, rfl⟩

/-- Witness for C10: `bd dolt set port not-a-number` exits with an error
and leaves the configuration and the audit log untouched. -/
theorem setDoltConfig_invalid_atomic_witness :
    setDoltConfig "port" "not-a-number" sampleDoltCfg = SetDoltResult.exitErr ∧
    metadataAfter sampleDoltCfg (setDoltConfig "port" "not-a-number" sampleDoltCfg) =
      sampleDoltCfg ∧
    auditEntriesAfter (setDoltConfig "port" "not-a-number" sampleDoltCfg) = [] := by
  have hthm := setDoltConfig_invalid_atomic sampleDoltCfg "port" "not-a-number"
  have hnone : goAtoi "not-a-number" = none := by decide
  have h1 : setDoltConfig "port" "not-a-number" sampleDoltCfg = SetDoltResult.exitErr := by
    apply hthm.1
    rw [hnone]
    trivial
  have h2 := hthm.2.2.2.2.2.2 "port" "not-a-number" h1
  exact ⟨h1, h2.1, h2.2⟩
